import Mathlib

/-!
Shallow embedding of the `xm` playback engine (Go package `xm`) and a
verification of its specification claims.

The embedding follows the source files:
  * the Stream sequencer / effect processor / mixer (`Stream`, `Read`,
    `Rewind`, `nextTick`, `nextRow`, `applyRowEffect`, `applyTickEffect`,
    `keyOff`, `nextPattern`, `selectPattern`, `readTick`);
  * the per-channel voice state (`streamChannel`, `assignNote`,
    `resetEnvelopes`) from `stream_channel.go`;
  * the sample/loop metadata from the `xmfile` package.

Modelling conventions:
  * Go `float64` arithmetic is embedded as exact rational arithmetic (ℚ);
    `math.Sqrt` and the pitch table `linearFrequency` are kept abstract as
    function parameters (bundled in `floatOps`), since no claim depends on
    their numeric values.
  * Go `int` is ℤ; `int16`/`uint8` casts are explicit wrap/truncation
    functions.  Signed integer overflow wraps in Go, so `int16` addition is
    modelled with `wrap16`.  Conversion of an out-of-range `float64` to
    `int16` is modelled as truncation followed by the same wrap.
  * A Go runtime fault (index out of range, nil dereference, or an infinite
    loop) is modelled by returning `none`; fallible operations therefore
    live in `Option`.
-/

set_option linter.unusedVariables false

attribute [local semireducible] Rat.mul Rat.inv Rat.add Rat.sub

namespace XM

/-- Go `int(f)` conversion of a `float64`: truncation toward zero. -/
def truncQ (q : ℚ) : ℤ := if q < 0 then ⌈q⌉ else ⌊q⌋

/-- Two's-complement wrap into the `int16` range, as performed by Go on
`int16` overflow. -/
def wrap16 (z : ℤ) : ℤ := (z + 2 ^ 15) % 2 ^ 16 - 2 ^ 15

/-- Go `int16(f)` for a `float64` `f`: truncate toward zero, then reduce to
the `int16` range. -/
def int16ofQ (q : ℚ) : ℤ := wrap16 (truncQ q)

/-- Source `binary.LittleEndian.PutUint16` of `uint16(z)`: the two produced bytes,
low byte first. -/
def bytesLE (z : ℤ) : List ℕ := [(z.emod 65536).toNat % 256, (z.emod 65536).toNat / 256]

/-- Modelled from the spec: the `clamp` helper used by `SetVolume` and the
volume-slide effect (`clamp(v, lo, hi)`); its definition is not under the
provided sources. -/
def clamp (v lo hi : ℚ) : ℚ := if v < lo then lo else if hi < v then hi else v

/-- Modelled from the spec: the `clampMin` helper used by the envelope
fadeout step; its definition is not under the provided sources. -/
def clampMin (v lo : ℚ) : ℚ := if v < lo then lo else v

/-- Source `EnvelopeFlags.IsOn` from the `xmfile` package: bit 0 of the flags. -/
def envIsOn (f : ℕ) : Bool := f &&& 1 != 0

/-- Source `xmfile.SampleLoopType`: the two low bits of a sample's type flags. -/
inductive sampleLoopType where
  | none
  | forward
  | pingPong
  | unknown
deriving DecidableEq, Repr

/-- Modelled from the spec: an instrument envelope is an ordered list of
`{x: tick, y: value}` points.  The engine code under the provided sources
never inspects the points, so only the carrier matters here. -/
structure envelope where
  points : List (ℕ × ℚ)
deriving DecidableEq, Repr

/-- Source `envelopeRunner` from `stream_channel.go`: a per-voice cursor over an
envelope. -/
structure envelopeRunner where
  env : envelope
  value : ℚ
  frame : ℤ
deriving DecidableEq, Repr

/-- The zero value of `envelopeRunner`. -/
def envelopeRunner.init : envelopeRunner := ⟨⟨[]⟩, 0, 0⟩

/-- The opcodes of `xmdb.Effect` that the engine dispatches on; all other
opcodes are no-ops (`other`). -/
inductive effectOp where
  | setVolume
  | keyOff
  | volumeSlide
  | arpeggio
  | patternBreak
  | other
deriving DecidableEq, Repr

/-- A compiled effect command from the module's flat effect table: opcode,
raw `uint8` operand, pre-scaled float operand, and the three arpeggio
semitone offsets (a `[3]uint8` array in the source). -/
structure effectCommand where
  op : effectOp
  rawValue : ℕ
  floatValue : ℚ
  arp0 : ℕ
  arp1 : ℕ
  arp2 : ℕ
deriving DecidableEq, Repr

/-- Modelled from the spec: `EffectKey` is an offset and count into the
flat effect table; its definition is not under the provided sources. -/
structure effectKey where
  index : ℕ
  len : ℕ
deriving DecidableEq, Repr

/-- Source `effectKey.IsEmpty`. -/
def effectKey.isEmpty (k : effectKey) : Bool := k.len == 0

/-- A compiled instrument as used by the engine: waveform amplitudes, loop
metadata (`float64` fields in the source), default volume/panning, volume
envelope flags and fadeout step, and the envelope point lists bound by
`assignNote`. -/
structure instrument where
  samples : List ℤ
  loopType : sampleLoopType
  loopStart : ℚ
  loopEnd : ℚ
  loopLength : ℚ
  volume : ℚ
  panning : ℚ
  volumeFlags : ℕ
  volumeFadeoutStep : ℚ
  volumeEnvelope : envelope
  panningEnvelope : envelope
deriving DecidableEq, Repr

/-- Modelled from the spec: the note classification returned by
`patternNote.Kind()` — empty (no note, no instrument), normal
(note+instrument), ghost-note (note only), ghost-instrument (instrument
only).  The classification code is not under the provided sources. -/
inductive noteKind where
  | empty
  | normal
  | ghost
  | ghostInstrument
deriving DecidableEq, Repr

/-- A compiled pattern note.  `period = 0` means no period.  `kind`,
`valid` (the `noteValid` flag: the note carries a usable period) and
`hasNotePortamento` (the `noteHasNotePortamento` flag) are modelled from
the spec since the note-compilation code is not under the provided
sources. -/
structure patternNote where
  kind : noteKind
  valid : Bool
  hasNotePortamento : Bool
  period : ℚ
  inst : Option instrument
  effect : effectKey
deriving DecidableEq, Repr

/-- The per-voice mutable state (`streamChannel`).  This is the union of
the fields declared in `stream_channel.go` and the fields the sequencer in
the engine file references on the same struct (`sustain`,
`arpeggioTicked`). -/
structure streamChannel where
  inst : Option instrument
  note : Option patternNote
  period : ℚ
  sampleStep : ℚ
  effect : effectKey
  keyOn : Bool
  sustain : Bool
  panning : ℚ
  sampleOffset : ℚ
  volume : ℚ
  fadeoutVolume : ℚ
  computedVolume : ℚ × ℚ
  arpeggioRunning : Bool
  arpeggioTicked : Bool
  arpeggioNoteOffset : ℚ
  volumeSlideValue : ℚ
  vibratoPeriodOffset : ℚ
  reverse : Bool
  volumeEnvelope : envelopeRunner
  panningEnvelope : envelopeRunner
deriving DecidableEq, Repr

/-- The Go zero value of `streamChannel`, as produced by
`make([]streamChannel, n)` in `LoadModule`. -/
def streamChannel.init : streamChannel where
  inst := Option.none
  note := Option.none
  period := 0
  sampleStep := 0
  effect := ⟨0, 0⟩
  keyOn := false
  sustain := false
  panning := 0
  sampleOffset := 0
  volume := 0
  fadeoutVolume := 0
  computedVolume := (0, 0)
  arpeggioRunning := false
  arpeggioTicked := false
  arpeggioNoteOffset := 0
  volumeSlideValue := 0
  vibratoPeriodOffset := 0
  reverse := false
  volumeEnvelope := envelopeRunner.init
  panningEnvelope := envelopeRunner.init

/-- A compiled pattern: row/channel counts and the row-major note list of
length `numRows × numChannels`. -/
structure pattern where
  numRows : ℕ
  numChannels : ℕ
  notes : List patternNote
deriving DecidableEq, Repr

/-- The compiled module shared by all playback state. -/
structure module where
  sampleRate : ℚ
  bytesPerTick : ℕ
  samplesPerTick : ℕ
  ticksPerRow : ℕ
  patternOrder : List pattern
  effectTab : List effectCommand
deriving DecidableEq, Repr

/-- Source `jumpKind`: the pattern-break state tag. -/
inductive jumpKind where
  | none
  | patternBreak
deriving DecidableEq, Repr

/-- The `Stream` struct: compiled module, current pattern pointer (nil
before the first row), sequencer counters, pattern-break state, global
volume scaling, and the voice array. -/
structure Stream where
  module : module
  pattern : Option pattern
  patternIndex : ℤ
  patternRowsRemain : ℤ
  patternRowIndex : ℤ
  rowTicksRemain : ℤ
  tickIndex : ℤ
  jumpKind : jumpKind
  jumpPattern : ℤ
  jumpRow : ℤ
  volumeScaling : ℚ
  channels : List streamChannel
deriving DecidableEq, Repr

/-- The two `float64` library functions the engine calls, kept abstract:
`math.Sqrt` and the pitch-to-frequency table `linearFrequency` (the latter
is not under the provided sources; modelled from the spec as an arbitrary
`pitch_to_frequency` function). -/
structure floatOps where
  sqrt : ℚ → ℚ
  linearFrequency : ℚ → ℚ

/-- The pattern-break state triple carried on the `Stream`
(`jumpKind`, `jumpPattern`, `jumpRow`), threaded through the per-row
effect application. -/
structure jumpState where
  kind : jumpKind
  pat : ℤ
  row : ℤ
deriving DecidableEq, Repr

/-- Source `Stream.keyOff`: release the voice; zero the volume unless the
instrument has an active volume envelope. -/
def keyOff (ch : streamChannel) : streamChannel :=
  let ch1 : streamChannel := { ch with sustain := false }
  match ch1.inst with
  | Option.none => { ch1 with volume := 0 }
  | Option.some i => if envIsOn i.volumeFlags then ch1 else { ch1 with volume := 0 }

/-- Source `Stream.envelopeTick`: while not sustaining, step the fadeout volume
down by the instrument's fadeout step (only when the volume envelope is
on). -/
def envelopeTick (ch : streamChannel) : streamChannel :=
  match ch.inst with
  | Option.none => ch
  | Option.some i =>
    if envIsOn i.volumeFlags then
      if ch.sustain then ch
      else { ch with fadeoutVolume := clampMin (ch.fadeoutVolume - i.volumeFadeoutStep) 0 }
    else ch

/-- The slice `s.module.effectTab[offset : offset+numEffects]` addressed by
a voice's effect key.  The input contract of the compiled module
guarantees the key is in range, so the total `drop`/`take` never
truncates on engine-reachable inputs. -/
def effectSlice (tab : List effectCommand) (k : effectKey) : List effectCommand :=
  (tab.drop k.index).take k.len

/-- One command of `Stream.applyRowEffect`'s dispatch loop. -/
def applyRowCommand (patternIndex : ℤ) (acc : jumpState × streamChannel)
    (e : effectCommand) : jumpState × streamChannel :=
  let js := acc.1
  let ch := acc.2
  match e.op with
  | effectOp.setVolume => (js, { ch with volume := e.floatValue })
  | effectOp.keyOff => if e.rawValue ≠ 0 then (js, ch) else (js, keyOff ch)
  | effectOp.volumeSlide =>
    if e.floatValue ≠ 0 then (js, { ch with volumeSlideValue := e.floatValue }) else (js, ch)
  | effectOp.patternBreak =>
    (⟨jumpKind.patternBreak, patternIndex + 1, (e.rawValue : ℤ)⟩, ch)
  | _ => (js, ch)

/-- Source `Stream.applyRowEffect`: fold the voice's effect-table slice over the
row-scoped dispatch. -/
def applyRowEffect (tab : List effectCommand) (patternIndex : ℤ) (js : jumpState)
    (ch : streamChannel) : jumpState × streamChannel :=
  (effectSlice tab ch.effect).foldl (applyRowCommand patternIndex) (js, ch)

/-- One command of `Stream.applyTickEffect`'s dispatch loop.  The key-off
comparison `e.rawValue != uint8(s.tickIndex)` truncates the tick index to
eight bits.  The arpeggio index is `s.tickIndex % 3` on a Go `int`
(truncated remainder); a negative tick index never reaches this code. -/
def applyTickCommand (tickIndex : ℤ) (ch : streamChannel)
    (e : effectCommand) : streamChannel :=
  match e.op with
  | effectOp.keyOff =>
    if e.rawValue ≠ (tickIndex.emod 256).toNat then ch else keyOff ch
  | effectOp.arpeggio =>
    let i := tickIndex.tmod 3
    let offset : ℕ := if i = 0 then e.arp0 else if i = 1 then e.arp1 else e.arp2
    { ch with
      arpeggioNoteOffset := (offset : ℚ)
      arpeggioRunning := i ≠ 0
      arpeggioTicked := true }
  | effectOp.volumeSlide =>
    if tickIndex = 0 then ch
    else { ch with volume := clamp (ch.volume + ch.volumeSlideValue) 0 1 }
  | _ => ch

/-- Source `Stream.applyTickEffect`: fold the voice's effect-table slice over the
tick-scoped dispatch. -/
def applyTickEffect (tab : List effectCommand) (tickIndex : ℤ)
    (ch : streamChannel) : streamChannel :=
  (effectSlice tab ch.effect).foldl (applyTickCommand tickIndex) ch

/-- The per-voice body of `Stream.nextTick`: envelope step, stereo gain
from the hardcoded `panning := 0.5`, arpeggio bookkeeping, tick effects,
and the sample-step recomputation. -/
def tickChannel (fo : floatOps) (volumeScaling : ℚ) (tab : List effectCommand)
    (tickIndex : ℤ) (sampleRate : ℚ) (ch : streamChannel) : streamChannel :=
  let panning : ℚ := 1 / 2
  let ch1 := envelopeTick ch
  let ch2 := { ch1 with
    computedVolume :=
      (volumeScaling * ch1.volume * ch1.fadeoutVolume * fo.sqrt (1 - panning),
       volumeScaling * ch1.volume * ch1.fadeoutVolume * fo.sqrt panning) }
  let ch3 := { ch2 with arpeggioTicked := false }
  let ch4 := if ch3.effect.isEmpty then ch3 else applyTickEffect tab tickIndex ch3
  let ch5 :=
    if ch4.arpeggioRunning && !ch4.arpeggioTicked then
      { ch4 with arpeggioRunning := false, arpeggioNoteOffset := 0 }
    else ch4
  { ch5 with
    sampleStep := fo.linearFrequency (ch5.period - 64 * ch5.arpeggioNoteOffset) / sampleRate }

/-- Source `Stream.selectPattern`: look up `patternOrder[i]` (a Go index-out-of-
range fault for an exhausted pattern order is `none`), reset the row
counters to the new pattern. -/
def selectPattern (s : Stream) (i : ℤ) : Option Stream :=
  if h : 0 ≤ i ∧ i.toNat < s.module.patternOrder.length then
    let p := s.module.patternOrder.get ⟨i.toNat, h.2⟩
    Option.some { s with
      patternIndex := i
      pattern := Option.some p
      patternRowIndex := -1
      patternRowsRemain := (p.numRows : ℤ) }
  else Option.none

/-- The per-channel note handling inlined in `Stream.nextRow`: either keep
the current note (detaching the instrument when the cursor has run past
the sample data) or start playing the next note. -/
def assignRowNote (n : patternNote) (ch : streamChannel) : streamChannel :=
  match n.inst with
  | Option.none =>
    let ch1 := { ch with effect := n.effect }
    let ch2 := if n.period ≠ 0 then { ch1 with period := n.period } else ch1
    match ch2.inst with
    | Option.some i =>
      if (i.samples.length : ℚ) ≤ ch2.sampleOffset then { ch2 with inst := Option.none }
      else ch2
    | Option.none => ch2
  | Option.some i =>
    let ch1 :=
      if n.period ≠ 0 then
        { ch with sampleOffset := 0, reverse := false, period := n.period }
      else ch
    { ch1 with
      effect := n.effect
      volume := i.volume
      inst := Option.some i
      sustain := true
      fadeoutVolume := 1 }

/-- The channel loop of `Stream.nextRow`: pair each voice with this row's
note, apply the note and (when non-empty) the row-scoped effects,
threading the pattern-break state.  A voice without a matching note is the
Go out-of-range fault (`none`). -/
def rowChannels (tab : List effectCommand) (patternIndex : ℤ) (js : jumpState) :
    List streamChannel → List patternNote → Option (jumpState × List streamChannel)
  | [], _ => Option.some (js, [])
  | _ :: _, [] => Option.none
  | ch :: cs, n :: ns =>
    let ch1 := assignRowNote n ch
    let step : jumpState × streamChannel :=
      if ch1.effect.isEmpty then (js, ch1) else applyRowEffect tab patternIndex js ch1
    (rowChannels tab patternIndex step.1 cs ns).map fun r => (r.1, step.2 :: r.2)

/-- Source `Stream.nextRow`: advance to the next row (or execute a pending
pattern jump), then fetch the row's notes and run the channel loop. -/
def nextRow (s : Stream) : Option Stream :=
  let positioned : Option Stream :=
    if s.jumpKind = jumpKind.none then
      (if s.patternRowsRemain = 0 then selectPattern s (s.patternIndex + 1)
       else Option.some s).map fun s1 =>
        { s1 with
          patternRowIndex := s1.patternRowIndex + 1
          patternRowsRemain := s1.patternRowsRemain - 1 }
    else
      match selectPattern { s with jumpKind := jumpKind.none } s.jumpPattern with
      | Option.none => Option.none
      | Option.some s1 =>
        match s1.pattern with
        | Option.none => Option.none
        | Option.some p =>
          Option.some { s1 with
            patternRowIndex := s.jumpRow
            patternRowsRemain := (p.numRows : ℤ) - s.jumpRow - 1 }
  positioned.bind fun s2 =>
    match s2.pattern with
    | Option.none => Option.none
    | Option.some p =>
      let noteOffset : ℤ := (p.numChannels : ℤ) * s2.patternRowIndex
      if 0 ≤ noteOffset ∧ noteOffset.toNat + p.numChannels ≤ p.notes.length then
        let notes := (p.notes.drop noteOffset.toNat).take p.numChannels
        let s3 := { s2 with rowTicksRemain := (s2.module.ticksPerRow : ℤ), tickIndex := -1 }
        (rowChannels s3.module.effectTab s3.patternIndex
            ⟨s3.jumpKind, s3.jumpPattern, s3.jumpRow⟩ s3.channels notes).map fun r =>
          { s3 with
            jumpKind := r.1.kind
            jumpPattern := r.1.pat
            jumpRow := r.1.row
            channels := r.2 }
      else Option.none

/-- Source `Stream.nextTick`: enter the next row when the current one is
exhausted, bump the tick counters, and run the per-voice tick update. -/
def nextTick (fo : floatOps) (s : Stream) : Option Stream :=
  ((if s.rowTicksRemain = 0 then nextRow s else Option.some s).map fun s1 =>
    let s2 := { s1 with rowTicksRemain := s1.rowTicksRemain - 1, tickIndex := s1.tickIndex + 1 }
    { s2 with
      channels := s2.channels.map
        (tickChannel fo s2.volumeScaling s2.module.effectTab s2.tickIndex s2.module.sampleRate) })

/-- The `while sampleOffset >= loopEnd { sampleOffset -= loopLength }`
wraparound of a forward-looping sample.  For `loopLength ≤ 0` the Go loop
does not terminate; that case is modelled as the identity (all theorems
about it assume a positive loop length). -/
def forwardWrap (loopEnd loopLength off : ℚ) : ℚ :=
  if h : 0 < loopLength ∧ loopEnd ≤ off then forwardWrap loopEnd loopLength (off - loopLength)
  else off
termination_by Nat.ceil ((off - loopEnd) / loopLength + 1)
decreasing_by
  have h0 : (0 : ℚ) ≤ (off - loopEnd) / loopLength :=
    div_nonneg (by linarith [h.2]) (le_of_lt h.1)
  have hL : loopLength ≠ 0 := ne_of_gt h.1
  have heq : (off - loopLength - loopEnd) / loopLength + 1 = (off - loopEnd) / loopLength := by
    field_simp
    ring
  rw [heq]
  calc Nat.ceil ((off - loopEnd) / loopLength)
      < Nat.ceil ((off - loopEnd) / loopLength) + 1 := Nat.lt_succ_self _
    _ = Nat.ceil ((off - loopEnd) / loopLength + 1) := (Nat.ceil_add_one h0).symm

/-- The loop-policy advance of a voice's sample cursor, from the
`switch inst.loopType` at the end of the mixer's per-voice body.  The
ping-pong reflection mirrors the source exactly: new offsets are rebuilt
from truncated-integer arithmetic (`int(...)` casts and the Go `%`
truncated remainder). -/
def advanceSample (inst : instrument) (ch : streamChannel) : streamChannel :=
  match inst.loopType with
  | sampleLoopType.none => { ch with sampleOffset := ch.sampleOffset + ch.sampleStep }
  | sampleLoopType.forward =>
    { ch with sampleOffset := forwardWrap inst.loopEnd inst.loopLength (ch.sampleOffset + ch.sampleStep) }
  | sampleLoopType.pingPong =>
    if ch.reverse then
      let off := ch.sampleOffset - ch.sampleStep
      if off ≤ inst.loopStart then
        { ch with
          reverse := false
          sampleOffset := ((truncQ inst.loopStart + (truncQ off).tmod (truncQ inst.loopLength) : ℤ) : ℚ) }
      else { ch with sampleOffset := off }
    else
      let off := ch.sampleOffset + ch.sampleStep
      if inst.loopEnd ≤ off then
        { ch with
          reverse := true
          sampleOffset := ((truncQ inst.loopEnd - (truncQ off).tmod (truncQ inst.loopLength) : ℤ) : ℚ) }
      else { ch with sampleOffset := off }
  | sampleLoopType.unknown => ch

/-- The per-voice body of one mixer frame: skip a detached voice or a
cursor past the sample data, read the amplitude at the integer part of
the cursor (a Go index-out-of-range fault is `none`), scale into the two
stereo contributions, and advance the cursor by the loop policy. -/
def mixVoice (ch : streamChannel) : Option (ℤ × ℤ × streamChannel) :=
  match ch.inst with
  | Option.none => Option.some (0, 0, ch)
  | Option.some inst =>
    if (inst.samples.length : ℚ) < ch.sampleOffset then Option.some (0, 0, ch)
    else
      let idx := truncQ ch.sampleOffset
      match (if 0 ≤ idx then inst.samples.get? idx.toNat else Option.none) with
      | Option.none => Option.none
      | Option.some v =>
        let l := int16ofQ ((1 / 4 : ℚ) * (v : ℚ) * ch.computedVolume.1)
        let r := int16ofQ ((1 / 4 : ℚ) * (v : ℚ) * ch.computedVolume.2)
        Option.some (l, r, advanceSample inst ch)

/-- The channel loop of one mixer frame, accumulating the two `int16`
accumulators with Go's wrapping signed addition. -/
def mixChannels (acc : ℤ × ℤ) : List streamChannel → Option (ℤ × ℤ × List streamChannel)
  | [] => Option.some (acc.1, acc.2, [])
  | ch :: cs =>
    (mixVoice ch).bind fun r =>
      (mixChannels (wrap16 (acc.1 + r.1), wrap16 (acc.2 + r.2.1)) cs).map fun rest =>
        (rest.1, rest.2.1, r.2.2 :: rest.2.2)

/-- The frame loop of `Stream.readTick`: each frame mixes every voice and
emits four little-endian PCM bytes (left then right). -/
def readFrames : ℕ → List streamChannel → Option (List ℕ × List streamChannel)
  | 0, cs => Option.some ([], cs)
  | k + 1, cs =>
    (mixChannels (0, 0) cs).bind fun r =>
      (readFrames k r.2.2).map fun rest =>
        (bytesLE r.1 ++ bytesLE r.2.1 ++ rest.1, rest.2)

/-- Source `Stream.readTick`: render `samplesPerTick` frames into the
`bytesPerTick`-byte window of the output buffer (a write past the window,
`4 × samplesPerTick > bytesPerTick`, is the Go slice fault). -/
def readTick (s : Stream) : Option (List ℕ × Stream) :=
  if 4 * s.module.samplesPerTick ≤ s.module.bytesPerTick then
    (readFrames s.module.samplesPerTick s.channels).map fun r =>
      (r.1, { s with channels := r.2 })
  else Option.none

/-- The `for len(b) > bytesPerTick` loop of `Stream.Read`, with the buffer
represented by its length and the written bytes accumulated.  The loop is
driven structurally by a fuel argument so that it evaluates by plain
reduction; each iteration shrinks the remaining buffer by
`bpt ≥ 1 > 0`, so a fuel initialised to the buffer length (as `Read`
does) never runs out and the fuel-exhausted branch is unreachable from
`Read`.  For `bytesPerTick = 0` the Go loop never terminates; that hang
is modelled as `none`. -/
def readLoopAux (fo : floatOps) (bpt : ℕ) : ℕ → Stream → ℕ → Option (ℕ × List ℕ × Stream)
  | fuel, s, blen =>
    if bpt < blen then
      if bpt = 0 then Option.none
      else
        match fuel with
        | 0 => Option.none
        | fuel' + 1 =>
          (nextTick fo s).bind fun s1 =>
            (readTick s1).bind fun r =>
              (readLoopAux fo bpt fuel' r.2 (blen - bpt)).map fun rest =>
                (bpt + rest.1, r.1 ++ rest.2.1, rest.2.2)
    else Option.some (0, [], s)

/-- Source `Stream.Read`: fill the buffer tick by tick; returns the number of
bytes written, the written bytes, and the stream state.  The Go
implementation always returns a `nil` error, so no end-of-stream signal
appears in the result; a runtime fault is `none`. -/
def Read (fo : floatOps) (s : Stream) (blen : ℕ) : Option (ℕ × List ℕ × Stream) :=
  readLoopAux fo s.module.bytesPerTick blen s blen

/-- Source `Stream.Rewind`: reset the five sequencer position counters and
nothing else. -/
def Rewind (s : Stream) : Stream :=
  { s with
    patternIndex := -1
    patternRowsRemain := 0
    patternRowIndex := -1
    rowTicksRemain := 0
    tickIndex := -1 }

/-- The stream produced by `NewStream` followed by `LoadModule` on an
already-compiled module: zero-valued struct, default volume scaling 0.8,
one zero-valued voice per channel, then `Rewind`. -/
def loadStream (m : module) (numChannels : ℕ) : Stream :=
  Rewind
    { module := m
      pattern := Option.none
      patternIndex := 0
      patternRowsRemain := 0
      patternRowIndex := 0
      rowTicksRemain := 0
      tickIndex := 0
      jumpKind := jumpKind.none
      jumpPattern := 0
      jumpRow := 0
      volumeScaling := 4 / 5
      channels := List.replicate numChannels streamChannel.init }

/-- Source `streamChannel.resetEnvelopes` from `stream_channel.go`. -/
def resetEnvelopes (ch : streamChannel) : streamChannel :=
  { ch with
    fadeoutVolume := 1
    volumeEnvelope := { ch.volumeEnvelope with value := 1, frame := 0 }
    panningEnvelope := { ch.panningEnvelope with value := 1 / 2, frame := 0 } }

/-- Source `streamChannel.assignNote` from `stream_channel.go`: resolve the four
note/instrument presence cases, with the note-portamento flag suppressing
the instrument re-bind, the pitch snap and the cursor reset. -/
def assignNote (ch : streamChannel) (n : patternNote) : streamChannel :=
  let ch0 := { ch with note := Option.some n, effect := n.effect }
  if n.kind = noteKind.empty then ch0
  else
    let hasPort := n.hasNotePortamento
    let ch1 :=
      if !hasPort && n.kind == noteKind.normal then
        match n.inst with
        | Option.some i =>
          { ch0 with
            inst := Option.some i
            volumeEnvelope := { ch0.volumeEnvelope with env := i.volumeEnvelope }
            panningEnvelope := { ch0.panningEnvelope with env := i.panningEnvelope } }
        | Option.none => ch0
      else ch0
    let ch2 := resetEnvelopes { ch1 with vibratoPeriodOffset := 0, keyOn := true }
    let ch3 := if !hasPort && n.valid then { ch2 with period := n.period } else ch2
    let ch4 :=
      if !hasPort && n.kind != noteKind.ghostInstrument then
        { ch3 with sampleOffset := 0, reverse := false }
      else ch3
    match ch4.inst with
    | Option.some i =>
      let ch5 := if n.kind != noteKind.ghost then { ch4 with volume := i.volume } else ch4
      { ch5 with panning := i.panning }
    | Option.none => ch4

/-! ### Concrete fixtures used by the counterexamples and witnesses -/

/-- A concrete instantiation of the abstract float operations: the square
root stubbed to the constant 1 and the pitch table to the identity, so
that a note of period `p` advances the cursor by `p / sampleRate` per
frame. -/
def fo0 : floatOps where
  sqrt := fun _ => 1
  linearFrequency := fun p => p

/-- A row note carrying nothing: no period, no instrument, no effect. -/
def emptyNote : patternNote where
  kind := noteKind.empty
  valid := false
  hasNotePortamento := false
  period := 0
  inst := Option.none
  effect := ⟨0, 0⟩

/-- A one-sample instrument (amplitude 100), no loop, no volume
envelope. -/
def inst1 : instrument where
  samples := [100]
  loopType := sampleLoopType.none
  loopStart := 0
  loopEnd := 0
  loopLength := 0
  volume := 1
  panning := 0
  volumeFlags := 0
  volumeFadeoutStep := 0
  volumeEnvelope := ⟨[]⟩
  panningEnvelope := ⟨[]⟩

/-- A two-sample instrument (amplitudes 100 then 50), no loop, no volume
envelope. -/
def inst2 : instrument where
  samples := [100, 50]
  loopType := sampleLoopType.none
  loopStart := 0
  loopEnd := 0
  loopLength := 0
  volume := 1
  panning := 0
  volumeFlags := 0
  volumeFadeoutStep := 0
  volumeEnvelope := ⟨[]⟩
  panningEnvelope := ⟨[]⟩

/-- A module with a single one-row, one-channel pattern holding an empty
note; one frame per tick (4 bytes), sample rate 1, 1 tick per row. -/
def song1 : module where
  sampleRate := 1
  bytesPerTick := 4
  samplesPerTick := 1
  ticksPerRow := 1
  patternOrder := [⟨1, 1, [emptyNote]⟩]
  effectTab := []

/-- The stream state after rendering the single tick of `song1`. -/
def song1After : Stream where
  module := song1
  pattern := Option.some ⟨1, 1, [emptyNote]⟩
  patternIndex := 0
  patternRowsRemain := 0
  patternRowIndex := 0
  rowTicksRemain := 0
  tickIndex := 0
  jumpKind := jumpKind.none
  jumpPattern := 0
  jumpRow := 0
  volumeScaling := 4 / 5
  channels := [streamChannel.init]

/-- A note that plays `inst2` at period 1 (cursor step 1 per frame under
`fo0` and sample rate 1). -/
def playNote2 : patternNote where
  kind := noteKind.normal
  valid := true
  hasNotePortamento := false
  period := 1
  inst := Option.some inst2
  effect := ⟨0, 0⟩

/-- A module whose single two-row pattern holds an empty first row and a
note playing `inst2` on the second row. -/
def song2 : module where
  sampleRate := 1
  bytesPerTick := 4
  samplesPerTick := 1
  ticksPerRow := 1
  patternOrder := [⟨2, 1, [emptyNote, playNote2]⟩]
  effectTab := []

/-- A voice playing `inst1` whose cursor sits exactly at the sample
length: reachable by linear advance whenever the per-frame step divides
the sample length exactly (for instance a step of 1 from offset 0). -/
def overrunVoice : streamChannel :=
  { streamChannel.init with inst := Option.some inst1, sampleOffset := 1 }

/-- A key-off effect command with raw operand 3. -/
def koCmd3 : effectCommand where
  op := effectOp.keyOff
  rawValue := 3
  floatValue := 0
  arp0 := 0
  arp1 := 0
  arp2 := 0

/-- A sustained voice whose effect key addresses the single command of the
effect table. -/
def koVoice : streamChannel :=
  { streamChannel.init with sustain := true, volume := 1, effect := ⟨0, 1⟩ }

/-- A six-sample ping-pong instrument looping over `[2, 6)` with loop
length 4. -/
def ppInst : instrument where
  samples := [1, 1, 1, 1, 1, 1]
  loopType := sampleLoopType.pingPong
  loopStart := 2
  loopEnd := 6
  loopLength := 4
  volume := 1
  panning := 0
  volumeFlags := 0
  volumeFadeoutStep := 0
  volumeEnvelope := ⟨[]⟩
  panningEnvelope := ⟨[]⟩

/-- A forward-playing voice on `ppInst` about to overshoot the loop end:
cursor 5, step 2. -/
def ppVoice : streamChannel :=
  { streamChannel.init with inst := Option.some ppInst, sampleOffset := 5, sampleStep := 2 }

/-- A six-sample forward-looping instrument looping over `[2, 6)` with
loop length 4. -/
def fwdInst : instrument where
  samples := [1, 1, 1, 1, 1, 1]
  loopType := sampleLoopType.forward
  loopStart := 2
  loopEnd := 6
  loopLength := 4
  volume := 1
  panning := 0
  volumeFlags := 0
  volumeFadeoutStep := 0
  volumeEnvelope := ⟨[]⟩
  panningEnvelope := ⟨[]⟩

/-- A voice on `fwdInst` with a step (9) larger than twice the loop
length. -/
def fwdVoice : streamChannel :=
  { streamChannel.init with inst := Option.some fwdInst, sampleOffset := 3, sampleStep := 9 }

/-- The voice state while `playNote2` is sounding, with the cursor at the
loop-free sample start. -/
def playCh : streamChannel :=
  { streamChannel.init with
    inst := Option.some inst2
    period := 1
    sampleStep := 1
    sustain := true
    sampleOffset := 0
    volume := 1
    fadeoutVolume := 1
    computedVolume := (4 / 5, 4 / 5) }

/-- The stream state after rendering the two ticks of `song2` — the same
state whether they were rendered from a fresh stream or re-rendered after
a rewind, since the second row retriggers the voice. -/
def song2After : Stream where
  module := song2
  pattern := Option.some ⟨2, 1, [emptyNote, playNote2]⟩
  patternIndex := 0
  patternRowsRemain := 0
  patternRowIndex := 1
  rowTicksRemain := 0
  tickIndex := 0
  jumpKind := jumpKind.none
  jumpPattern := 0
  jumpRow := 0
  volumeScaling := 4 / 5
  channels := [{ playCh with sampleOffset := 1 }]

/-- The fresh stream state of `song2` after its first tick (empty first
row: the voice is still the zero value). -/
def s2t1 : Stream :=
  { song2After with
    patternRowsRemain := 1
    patternRowIndex := 0
    channels := [streamChannel.init] }

/-- The fresh stream state of `song2` one `nextTick` into its second row:
the note has just retriggered, the cursor is back at 0 and no frame has
been mixed yet. -/
def s2t2 : Stream := { song2After with channels := [playCh] }

/-- The rewound stream of `song2` one `nextTick` into its first row: the
sequencer is back on row 0 but the voice still carries the stale
instrument and cursor from before the rewind. -/
def s2r1 : Stream :=
  { song2After with
    patternRowsRemain := 1
    patternRowIndex := 0
    channels := [{ playCh with sampleOffset := 1 }] }

/-- The rewound stream of `song2` after its first tick was re-rendered:
the stale voice advanced to cursor 2. -/
def s2r2 : Stream :=
  { song2After with
    patternRowsRemain := 1
    patternRowIndex := 0
    channels := [{ playCh with sampleOffset := 2 }] }

/-! ### Helper lemmas -/

/-- Truncation `truncQ` of an integer is that integer. -/
theorem truncQ_intCast (z : ℤ) : truncQ (z : ℚ) = z := by
  unfold truncQ
  split <;> simp

/-- For a nonnegative rational, Go truncation is the floor. -/
theorem truncQ_of_nonneg {q : ℚ} (h : 0 ≤ q) : truncQ q = ⌊q⌋ := by
  unfold truncQ
  rw [if_neg (not_lt.mpr h)]

/-- Go truncation preserves nonnegativity. -/
theorem truncQ_nonneg {q : ℚ} (h : 0 ≤ q) : 0 ≤ truncQ q := by
  rw [truncQ_of_nonneg h]
  exact Int.le_floor.mpr (by exact_mod_cast h)

/-- Go truncation is monotone with respect to an integer lower bound. -/
theorem le_truncQ_of_le {z : ℤ} {q : ℚ} (h : (z : ℚ) ≤ q) : z ≤ truncQ q := by
  unfold truncQ
  split
  · calc z = ⌈(z : ℚ)⌉ := (Int.ceil_intCast z).symm
      _ ≤ ⌈q⌉ := Int.ceil_mono h
  · exact Int.le_floor.mpr h

/-- The Go truncated remainder agrees with the Euclidean remainder on
nonnegative operands. -/
theorem tmod_eq_emod_of_nonneg {a b : ℤ} (ha : 0 ≤ a) (hb : 0 ≤ b) : a.tmod b = a.emod b :=
  Int.tmod_eq_emod ha hb

/-- Releasing a voice never touches the stereo gain pair. -/
theorem keyOff_computedVolume (ch : streamChannel) :
    (keyOff ch).computedVolume = ch.computedVolume := by
  unfold keyOff
  cases ch.inst <;> simp
  split <;> simp

/-- Tick effects never touch the stereo gain pair computed earlier in the
same tick. -/
theorem applyTickCommand_computedVolume (t : ℤ) (ch : streamChannel) (e : effectCommand) :
    (applyTickCommand t ch e).computedVolume = ch.computedVolume := by
  unfold applyTickCommand
  rcases e with ⟨op, rv, fv, a0, a1, a2⟩
  cases op <;> simp <;> split <;> simp [keyOff_computedVolume]

/-- Folding tick effects never touches the stereo gain pair. -/
theorem applyTickEffect_computedVolume (tab : List effectCommand) (t : ℤ) (ch : streamChannel) :
    (applyTickEffect tab t ch).computedVolume = ch.computedVolume := by
  unfold applyTickEffect
  generalize effectSlice tab ch.effect = cmds
  induction cmds generalizing ch with
  | nil => rfl
  | cons e es ih =>
    rw [List.foldl_cons, ih, applyTickCommand_computedVolume]

/-- The stereo gain pair a voice leaves `tickChannel` with: the product of
the global scaling, the voice volume and the (envelope-stepped) fadeout
volume, split by the square-root pan law at the hardcoded centre panning
value 1/2. -/
theorem tickChannel_computedVolume (fo : floatOps) (vs : ℚ) (tab : List effectCommand)
    (t : ℤ) (sr : ℚ) (ch : streamChannel) :
    (tickChannel fo vs tab t sr ch).computedVolume =
      (vs * (envelopeTick ch).volume * (envelopeTick ch).fadeoutVolume * fo.sqrt (1 - 1 / 2),
       vs * (envelopeTick ch).volume * (envelopeTick ch).fadeoutVolume * fo.sqrt (1 / 2)) := by
  simp only [tickChannel]
  split_ifs <;> simp [applyTickEffect_computedVolume]

/-- The forward-loop wraparound lands in `[loopEnd − loopLength, loopEnd)`
whenever it starts at or above the window. -/
theorem forwardWrap_bounds (e L : ℚ) : ∀ (off : ℚ), 0 < L → e - L ≤ off →
    e - L ≤ forwardWrap e L off ∧ forwardWrap e L off < e := by
  refine forwardWrap.induct e L
    (fun off => 0 < L → e - L ≤ off →
      e - L ≤ forwardWrap e L off ∧ forwardWrap e L off < e) ?_ ?_
  · intro off h ih hL hlow
    rw [forwardWrap.eq_def, dif_pos h]
    exact ih hL (by linarith [h.2])
  · intro off h hL hlow
    rw [forwardWrap.eq_def, dif_neg h]
    refine ⟨hlow, ?_⟩
    rcases not_and_or.mp h with h' | h'
    · exact absurd hL h'
    · linarith [lt_of_not_le h']

/-- The forward flip of a ping-pong cursor advance: overshooting the loop
end turns `reverse` on and rebuilds the cursor from truncated-integer
arithmetic. -/
theorem advanceSample_pingpong_fwd (i : instrument) (c : streamChannel)
    (hloop : i.loopType = sampleLoopType.pingPong) (hrev : c.reverse = false)
    (hge : i.loopEnd ≤ c.sampleOffset + c.sampleStep) :
    advanceSample i c = { c with
      reverse := true
      sampleOffset :=
        ((truncQ i.loopEnd -
          (truncQ (c.sampleOffset + c.sampleStep)).tmod (truncQ i.loopLength) : ℤ) : ℚ) } := by
  unfold advanceSample
  rw [hloop, hrev]
  simp only [Bool.false_eq_true, if_false]
  rw [if_pos hge]

/-- The backward flip of a ping-pong cursor advance: undershooting the
loop start turns `reverse` off and rebuilds the cursor from
truncated-integer arithmetic. -/
theorem advanceSample_pingpong_rev (i : instrument) (c : streamChannel)
    (hloop : i.loopType = sampleLoopType.pingPong) (hrev : c.reverse = true)
    (hle2 : c.sampleOffset - c.sampleStep ≤ i.loopStart) :
    advanceSample i c = { c with
      reverse := false
      sampleOffset :=
        ((truncQ i.loopStart +
          (truncQ (c.sampleOffset - c.sampleStep)).tmod (truncQ i.loopLength) : ℤ) : ℚ) } := by
  unfold advanceSample
  rw [hloop, hrev]
  simp only [if_true]
  rw [if_pos hle2]

/-- Unfolding one iteration of the fill loop. -/
theorem readLoopAux_step (fo : floatOps) (bpt fuel blen : ℕ) (s : Stream)
    (h1 : bpt < blen) (h2 : 0 < bpt) :
    readLoopAux fo bpt (fuel + 1) s blen =
      ((nextTick fo s).bind fun s1 => (readTick s1).bind fun r =>
        (readLoopAux fo bpt fuel r.2 (blen - bpt)).map fun rest =>
          (bpt + rest.1, r.1 ++ rest.2.1, rest.2.2)) := by
  rw [readLoopAux.eq_def]
  simp [h1, Nat.pos_iff_ne_zero.mp h2]

/-- The fill loop stops when the buffer cannot hold another tick. -/
theorem readLoopAux_stop (fo : floatOps) (bpt fuel blen : ℕ) (s : Stream)
    (h : ¬ bpt < blen) : readLoopAux fo bpt fuel s blen = Option.some (0, [], s) := by
  rw [readLoopAux.eq_def]
  simp [h]

/-- A zero tick size makes the Go loop hang: the model returns `none`. -/
theorem readLoopAux_zero (fo : floatOps) (fuel blen : ℕ) (s : Stream)
    (h1 : 0 < blen) : readLoopAux fo 0 fuel s blen = Option.none := by
  rw [readLoopAux.eq_def]
  simp [h1]

/-- The unreachable fuel-exhaustion branch. -/
theorem readLoopAux_fuel0 (fo : floatOps) (bpt blen : ℕ) (s : Stream)
    (h1 : bpt < blen) (h2 : bpt ≠ 0) : readLoopAux fo bpt 0 s blen = Option.none := by
  rw [readLoopAux.eq_def]
  simp [h1, h2]

/-- Whatever the fill loop returns, the byte count is a multiple of the
tick size and fits the buffer. -/
theorem readLoopAux_spec (fo : floatOps) (bpt : ℕ) :
    ∀ (fuel blen : ℕ) (s : Stream) (r : ℕ × List ℕ × Stream),
      readLoopAux fo bpt fuel s blen = Option.some r → bpt ∣ r.1 ∧ r.1 ≤ blen := by
  intro fuel
  induction fuel with
  | zero =>
    intro blen s r h
    by_cases h1 : bpt < blen
    · by_cases h2 : bpt = 0
      · subst h2
        rw [readLoopAux_zero fo 0 blen s h1] at h
        exact absurd h (by simp)
      · rw [readLoopAux_fuel0 fo bpt blen s h1 h2] at h
        exact absurd h (by simp)
    · rw [readLoopAux_stop fo bpt 0 blen s h1] at h
      cases Option.some.inj h
      exact ⟨dvd_zero bpt, Nat.zero_le blen⟩
  | succ fuel ih =>
    intro blen s r h
    by_cases h1 : bpt < blen
    · by_cases h2 : bpt = 0
      · subst h2
        rw [readLoopAux_zero fo (fuel + 1) blen s h1] at h
        exact absurd h (by simp)
      · rw [readLoopAux_step fo bpt fuel blen s h1 (Nat.pos_of_ne_zero h2)] at h
        simp only [Option.bind_eq_some, Option.map_eq_some'] at h
        obtain ⟨s1, hs1, r1, hr1, rest, hrest, hr⟩ := h
        obtain ⟨hd, hle⟩ := ih (blen - bpt) r1.2 rest hrest
        cases hr
        exact ⟨dvd_add (dvd_refl bpt) hd, by omega⟩
    · rw [readLoopAux_stop fo bpt (fuel + 1) blen s h1] at h
      cases Option.some.inj h
      exact ⟨dvd_zero bpt, Nat.zero_le blen⟩

/-- The single tick of `song1`. -/
theorem nextTick_song1 : nextTick fo0 (loadStream song1 1) = Option.some song1After := by
  decide

/-- Mixing the single (silent) tick of `song1`. -/
theorem readTick_song1After : readTick song1After = Option.some ([0, 0, 0, 0], song1After) := by
  decide

/-- Advancing past the single pattern of `song1` faults in
`selectPattern`: the pattern order is exhausted. -/
theorem nextTick_song1After : nextTick fo0 song1After = Option.none := by
  decide

/-- Rendering `song1` from a fresh stream: one 4-byte tick of silence. -/
theorem read_song1_eq :
    Read fo0 (loadStream song1 1) 5 = Option.some (4, [0, 0, 0, 0], song1After) := by
  have hb : (loadStream song1 1).module.bytesPerTick = 4 := rfl
  rw [Read, hb, show (5 : ℕ) = 4 + 1 from rfl,
    readLoopAux_step fo0 4 4 (4 + 1) _ (by norm_num) (by norm_num), nextTick_song1]
  simp only [Option.some_bind, readTick_song1After]
  rw [readLoopAux_stop fo0 4 4 (4 + 1 - 4) _ (by norm_num)]
  simp

/-- Rendering `song1` once its pattern order is exhausted: a fault, not
an end-of-stream signal. -/
theorem read_song1After_eq : Read fo0 song1After 5 = Option.none := by
  have hb : song1After.module.bytesPerTick = 4 := rfl
  rw [Read, hb, show (5 : ℕ) = 4 + 1 from rfl,
    readLoopAux_step fo0 4 4 (4 + 1) _ (by norm_num) (by norm_num), nextTick_song1After]
  rfl

/-- The first tick of `song2` from a fresh stream. -/
theorem nextTick_song2 : nextTick fo0 (loadStream song2 1) = Option.some s2t1 := by
  decide

/-- Mixing the first (silent) tick of fresh `song2`. -/
theorem readTick_s2t1 : readTick s2t1 = Option.some ([0, 0, 0, 0], s2t1) := by
  decide

/-- The second tick of `song2`: the note row retriggers the voice. -/
theorem nextTick_s2t1 : nextTick fo0 s2t1 = Option.some s2t2 := by
  decide

/-- Mixing the second tick of `song2`: amplitude 100 through the gain
chain yields PCM value 20 on both stereo channels. -/
theorem readTick_s2t2 : readTick s2t2 = Option.some ([20, 0, 20, 0], song2After) := by
  decide

/-- The first tick after rewinding `song2`: the sequencer restarts on row
0 but the voice keeps its stale instrument and cursor. -/
theorem nextTick_s2r : nextTick fo0 (Rewind song2After) = Option.some s2r1 := by
  decide

/-- Mixing the first rewound tick: the stale voice reads amplitude 50 at
cursor 1 and yields PCM value 10, where the fresh stream was silent. -/
theorem readTick_s2r1 : readTick s2r1 = Option.some ([10, 0, 10, 0], s2r2) := by
  decide

/-- The second rewound tick coincides with the fresh second tick: the
note row retriggers the voice either way. -/
theorem nextTick_s2r2 : nextTick fo0 s2r2 = Option.some s2t2 := by
  decide

/-- Rendering two ticks of `song2` from a fresh stream. -/
theorem read_song2_eq :
    Read fo0 (loadStream song2 1) 9 =
      Option.some (8, [0, 0, 0, 0, 20, 0, 20, 0], song2After) := by
  have hb : (loadStream song2 1).module.bytesPerTick = 4 := rfl
  rw [Read, hb, show (9 : ℕ) = 8 + 1 from rfl,
    readLoopAux_step fo0 4 8 (8 + 1) _ (by norm_num) (by norm_num), nextTick_song2]
  simp only [Option.some_bind, readTick_s2t1]
  rw [show (8 + 1 - 4 : ℕ) = 4 + 1 from rfl,
    readLoopAux_step fo0 4 7 (4 + 1) _ (by norm_num) (by norm_num), nextTick_s2t1]
  simp only [Option.some_bind, readTick_s2t2]
  rw [readLoopAux_stop fo0 4 7 (4 + 1 - 4) _ (by norm_num)]
  simp

/-- Rendering two ticks of `song2` after a rewind: different bytes. -/
theorem read_song2_rewound_eq :
    Read fo0 (Rewind song2After) 9 =
      Option.some (8, [10, 0, 10, 0, 20, 0, 20, 0], song2After) := by
  have hb : (Rewind song2After).module.bytesPerTick = 4 := rfl
  rw [Read, hb, show (9 : ℕ) = 8 + 1 from rfl,
    readLoopAux_step fo0 4 8 (8 + 1) _ (by norm_num) (by norm_num), nextTick_s2r]
  simp only [Option.some_bind, readTick_s2r1]
  rw [show (8 + 1 - 4 : ℕ) = 4 + 1 from rfl,
    readLoopAux_step fo0 4 7 (4 + 1) _ (by norm_num) (by norm_num), nextTick_s2r2]
  simp only [Option.some_bind, readTick_s2t2]
  rw [readLoopAux_stop fo0 4 7 (4 + 1 - 4) _ (by norm_num)]
  simp

/-! ### Claim theorems -/

/-- Claim C1 (code bug): the mixer's bounds guard skips a voice only when
the cursor is strictly beyond the sample length, yet indexes the sample
data at the integer part of the cursor; at a cursor exactly equal to the
sample length (reachable by linear advance when the step divides the
length) the read is out of range — a Go panic, modelled as `none` —
instead of the natural silence the claim requires.  A cursor strictly
past the end is indeed skipped with a zero contribution. -/
theorem mix_at_sample_end_out_of_range :
    mixVoice overrunVoice = Option.none ∧
    mixVoice { overrunVoice with sampleOffset := 3 / 2 } =
      Option.some (0, 0, { overrunVoice with sampleOffset := 3 / 2 }) := by
  decide

/-- Claim C2 (code bug): on the one-pattern module `song1`, the first fill
renders the whole song (4 bytes), and the next fill faults (index out of
range in `selectPattern`, modelled as `none`) — `Read` as written returns
a `nil` error unconditionally and never signals end-of-stream, contrary
to its own documentation. -/
theorem read_after_song_end_no_eof :
    Read fo0 (loadStream song1 1) 5 = Option.some (4, [0, 0, 0, 0], song1After) ∧
    Read fo0 song1After 5 = Option.none :=
  ⟨read_song1_eq, read_song1After_eq⟩

/-- Claim C4 (code bug): a buffer of exactly `bytes_per_tick` bytes (4 for
`song1`) receives zero ticks because the fill loop uses a strict
comparison, not the `bytes_per_tick × floor(len/bytes_per_tick) = 4`
bytes the claim states. -/
theorem read_exact_tick_buffer_writes_nothing :
    Read fo0 (loadStream song1 1) 4 = Option.some (0, [], loadStream song1 1) ∧
    (0 : ℕ) ≠ 4 * (4 / 4) := by
  constructor
  · have hb : (loadStream song1 1).module.bytesPerTick = 4 := rfl
    rw [Read, hb, readLoopAux_stop fo0 4 4 4 _ (by norm_num)]
  · decide

/-- Claim C3 (counterexample): rendering two ticks of `song2` from a fresh
stream yields `[0,0,0,0,20,0,20,0]`, but rewinding and re-rendering
yields `[10,0,10,0,20,0,20,0]`: the voice keeps the instrument and cursor
it held at rewind time, so the empty first row keeps sounding the stale
note instead of the fresh stream's silence. -/
theorem rewind_rerender_output_differs :
    Read fo0 (loadStream song2 1) 9 =
      Option.some (8, [0, 0, 0, 0, 20, 0, 20, 0], song2After) ∧
    Read fo0 (Rewind song2After) 9 =
      Option.some (8, [10, 0, 10, 0, 20, 0, 20, 0], song2After) ∧
    ([0, 0, 0, 0, 20, 0, 20, 0] : List ℕ) ≠ [10, 0, 10, 0, 20, 0, 20, 0] :=
  ⟨read_song2_eq, read_song2_rewound_eq, by decide⟩

/-- Claim C5 (counterexample): with a ping-pong loop over `[2, 6)` and a
forward overshoot to cursor 7, the code sets the cursor to
`loop_end − (int(cursor) % int(loop_length)) = 6 − 3 = 3`, not the
reflection `loop_end − (cursor − loop_end) = 5` the claim states. -/
theorem pingpong_reflection_formula_cex :
    (advanceSample ppInst ppVoice).reverse = true ∧
    (advanceSample ppInst ppVoice).sampleOffset = 3 ∧
    ppInst.loopEnd - ((ppVoice.sampleOffset + ppVoice.sampleStep) - ppInst.loopEnd) = 5 ∧
    (3 : ℚ) ≠ 5 := by
  decide

/-- Claim C7 (counterexample): the tick-scoped key-off comparison
truncates the tick index to eight bits, so `KeyOff(3)` also fires on tick
259 (≡ 3 mod 256) — an "after" tick — releasing the voice and zeroing its
volume there. -/
theorem keyoff_tick_fires_mod256_cex :
    (applyTickEffect [koCmd3] 259 koVoice).sustain = false ∧
    (applyTickEffect [koCmd3] 259 koVoice).volume = 0 ∧
    (259 : ℤ) ≠ 3 := by
  decide

/-- Claim C9: whatever a fill returns, the byte count is a whole number
of ticks and fits the buffer. -/
theorem read_whole_ticks_only (fo : floatOps) (s : Stream) (blen : ℕ)
    (r : ℕ × List ℕ × Stream) (h : Read fo s blen = Option.some r) :
    s.module.bytesPerTick ∣ r.1 ∧ r.1 ≤ blen :=
  readLoopAux_spec fo s.module.bytesPerTick blen blen s r h

/-- Claim C9 witness: a 5-byte buffer over `song1` receives 4 bytes — a
single whole tick. -/
theorem read_whole_ticks_only_witness : (4 : ℕ) ∣ 4 ∧ (4 : ℕ) ≤ 5 :=
  read_whole_ticks_only fo0 (loadStream song1 1) 5 (4, [0, 0, 0, 0], song1After) read_song1_eq

/-- Claim C8: a forward-looping advance — however large the step — lands
the cursor in the half-open loop window. -/
theorem forward_loop_wrap_in_range (i : instrument) (ch : streamChannel)
    (hloop : i.loopType = sampleLoopType.forward)
    (hL : 0 < i.loopLength) (hends : i.loopEnd = i.loopStart + i.loopLength)
    (hoff : i.loopStart ≤ ch.sampleOffset) (hstep : 0 ≤ ch.sampleStep) :
    i.loopStart ≤ (advanceSample i ch).sampleOffset ∧
    (advanceSample i ch).sampleOffset < i.loopEnd := by
  have hadv : (advanceSample i ch).sampleOffset =
      forwardWrap i.loopEnd i.loopLength (ch.sampleOffset + ch.sampleStep) := by
    unfold advanceSample
    rw [hloop]
  have hlow : i.loopEnd - i.loopLength ≤ ch.sampleOffset + ch.sampleStep := by
    rw [hends]
    linarith
  have hb := forwardWrap_bounds i.loopEnd i.loopLength (ch.sampleOffset + ch.sampleStep) hL hlow
  rw [hadv]
  constructor
  · have := hb.1
    rw [hends] at this
    linarith
  · exact hb.2

/-- Claim C8 witness: on `fwdInst` (loop `[2, 6)`, length 4) a step of 9
from cursor 3 wraps back into the loop window. -/
theorem forward_loop_wrap_in_range_witness :
    (2 : ℚ) ≤ (advanceSample fwdInst fwdVoice).sampleOffset ∧
    (advanceSample fwdInst fwdVoice).sampleOffset < 6 :=
  forward_loop_wrap_in_range fwdInst fwdVoice rfl (by norm_num [fwdInst])
    (by norm_num [fwdInst]) (by norm_num [fwdInst, fwdVoice, streamChannel.init])
    (by norm_num [fwdVoice, streamChannel.init])

/-- Claim C10: the per-tick stereo gain of every voice is
`volumeScaling × volume × fadeoutVolume` split by `sqrt(1 − pan)` /
`sqrt(pan)` at the hardcoded centre `pan = 1/2` — the voice's own
`panning` field never enters — and therefore the two components are equal
for every voice after every tick. -/
theorem tick_gain_center_panning (fo : floatOps) (vs : ℚ) (tab : List effectCommand)
    (t : ℤ) (sr : ℚ) (ch : streamChannel) (s s' : Stream) (ch' : streamChannel)
    (h : nextTick fo s = Option.some s') (hmem : ch' ∈ s'.channels) :
    (tickChannel fo vs tab t sr ch).computedVolume =
      (vs * (envelopeTick ch).volume * (envelopeTick ch).fadeoutVolume * fo.sqrt (1 - 1 / 2),
       vs * (envelopeTick ch).volume * (envelopeTick ch).fadeoutVolume * fo.sqrt (1 / 2))
    ∧ (tickChannel fo vs tab t sr ch).computedVolume.1 =
        (tickChannel fo vs tab t sr ch).computedVolume.2
    ∧ ch'.computedVolume.1 = ch'.computedVolume.2 := by
  have half : (1 : ℚ) - 1 / 2 = 1 / 2 := by norm_num
  have pairEq : ∀ (vs0 : ℚ) (tab0 : List effectCommand) (t0 : ℤ) (sr0 : ℚ)
      (c : streamChannel),
      (tickChannel fo vs0 tab0 t0 sr0 c).computedVolume.1 =
        (tickChannel fo vs0 tab0 t0 sr0 c).computedVolume.2 := by
    intro vs0 tab0 t0 sr0 c
    rw [tickChannel_computedVolume, half]
  refine ⟨tickChannel_computedVolume fo vs tab t sr ch, pairEq vs tab t sr ch, ?_⟩
  unfold nextTick at h
  cases hopt : (if s.rowTicksRemain = 0 then nextRow s else Option.some s) with
  | none =>
    rw [hopt] at h
    exact absurd h (by simp)
  | some s1 =>
    rw [hopt] at h
    simp only [Option.map_some'] at h
    have hs := Option.some.inj h
    rw [← hs] at hmem
    simp only [List.mem_map] at hmem
    obtain ⟨c, _, rfl⟩ := hmem
    exact pairEq _ _ _ _ c

/-- Claim C10 witness: the single tick of `song1`, and a direct gain
computation on the zero voice. -/
theorem tick_gain_center_panning_witness :
    (tickChannel fo0 (4 / 5) [] 0 1 streamChannel.init).computedVolume =
      ((4 / 5) * (envelopeTick streamChannel.init).volume *
         (envelopeTick streamChannel.init).fadeoutVolume * fo0.sqrt (1 - 1 / 2),
       (4 / 5) * (envelopeTick streamChannel.init).volume *
         (envelopeTick streamChannel.init).fadeoutVolume * fo0.sqrt (1 / 2))
    ∧ (tickChannel fo0 (4 / 5) [] 0 1 streamChannel.init).computedVolume.1 =
        (tickChannel fo0 (4 / 5) [] 0 1 streamChannel.init).computedVolume.2
    ∧ streamChannel.init.computedVolume.1 = streamChannel.init.computedVolume.2 :=
  tick_gain_center_panning fo0 (4 / 5) [] 0 1 streamChannel.init
    (loadStream song1 1) song1After streamChannel.init nextTick_song1 (by decide)

/-- Claim C6: assigning a row note that carries a period (normal or
ghost-note) with no note-portamento effect resets the cursor to 0, clears
the ping-pong reverse flag, and snaps the pitch to the note's period;
with a note-portamento effect present the pitch snap is suppressed. -/
theorem assignNote_resets_cursor_and_period (ch : streamChannel) (n : patternNote)
    (hkind : n.kind = noteKind.normal ∨ n.kind = noteKind.ghost)
    (hvalid : n.valid = true) :
    (n.hasNotePortamento = false →
      (assignNote ch n).sampleOffset = 0 ∧ (assignNote ch n).reverse = false ∧
      (assignNote ch n).period = n.period)
    ∧ (n.hasNotePortamento = true → (assignNote ch n).period = ch.period) := by
  constructor <;>
  · intro hp
    rcases hkind with hk | hk <;> cases hni : n.inst <;> cases hci : ch.inst <;>
      simp_all [assignNote, resetEnvelopes]

/-- Claim C6 witness: assigning `playNote2` (a normal note, period 1, no
portamento) to the zero voice. -/
theorem assignNote_resets_cursor_and_period_witness :
    (assignNote streamChannel.init playNote2).sampleOffset = 0 ∧
    (assignNote streamChannel.init playNote2).reverse = false ∧
    (assignNote streamChannel.init playNote2).period = playNote2.period :=
  (assignNote_resets_cursor_and_period streamChannel.init playNote2
    (Or.inl rfl) rfl).1 rfl

/-- Claim C7 (amended): key-off with operand 0 at row scope releases the
voice immediately and a nonzero operand does nothing at row scope; at
tick scope the comparison truncates the tick index to eight bits, so the
voice is released on every tick index congruent to the operand modulo
256 — which for tick indices below 256 (any row of at most 256 ticks) is
exactly the tick equal to the operand, not before and not after.  In
both scopes the release sets `sustain = false` and zeroes `volume`
exactly when the instrument is absent or has no active volume
envelope, leaving `volume` untouched otherwise. -/
theorem keyoff_semantics (tab : List effectCommand) (e : effectCommand)
    (ch : streamChannel) (k : ℕ) (t : ℤ) (js : jumpState) (pidx : ℤ)
    (hop : e.op = effectOp.keyOff) (hraw : e.rawValue = k) (hk : k < 256)
    (htab : tab = [e]) (heff : ch.effect = ⟨0, 1⟩) :
    ((keyOff ch).sustain = false
      ∧ (ch.inst = Option.none → (keyOff ch).volume = 0)
      ∧ (∀ i, ch.inst = Option.some i → envIsOn i.volumeFlags = false →
          (keyOff ch).volume = 0)
      ∧ (∀ i, ch.inst = Option.some i → envIsOn i.volumeFlags = true →
          (keyOff ch).volume = ch.volume))
    ∧ (k = 0 → applyRowEffect tab pidx js ch = (js, keyOff ch))
    ∧ (k ≠ 0 → applyRowEffect tab pidx js ch = (js, ch))
    ∧ (applyTickEffect tab t ch =
        (if (t.emod 256).toNat = k then keyOff ch else ch))
    ∧ (0 ≤ t → t < 256 → applyTickEffect tab t ch =
        (if t = (k : ℤ) then keyOff ch else ch)) := by
  have hslice : effectSlice tab ch.effect = [e] := by
    rw [htab, heff]
    rfl
  have htick : applyTickEffect tab t ch =
      (if (t.emod 256).toNat = k then keyOff ch else ch) := by
    unfold applyTickEffect
    rw [hslice]
    simp only [List.foldl_cons, List.foldl_nil, applyTickCommand, hop, hraw]
    by_cases hx : (t.emod 256).toNat = k
    · simp [hx]
    · simp [hx, Ne.symm hx]
  refine ⟨⟨?_, ?_, ?_, ?_⟩, ?_, ?_, htick, ?_⟩
  · unfold keyOff
    cases hci : ch.inst <;> simp [hci]
    split <;> simp
  · intro hci
    simp [keyOff, hci]
  · intro i hci hflag
    simp [keyOff, hci, hflag]
  · intro i hci hflag
    simp [keyOff, hci, hflag]
  · intro hk0
    unfold applyRowEffect
    rw [hslice]
    simp [applyRowCommand, hop, hraw, hk0]
  · intro hk0
    unfold applyRowEffect
    rw [hslice]
    simp [applyRowCommand, hop, hraw, hk0]
  · intro h0 h256
    rw [htick]
    have hemod : t.emod 256 = t := Int.emod_eq_of_lt h0 h256
    have hiff : (t.emod 256).toNat = k ↔ t = (k : ℤ) := by
      rw [hemod]
      omega
    rw [if_congr hiff rfl rfl]

/-- Claim C7 (amended) witness: `KeyOff(3)` on a sustained voice with no
instrument, checked at row scope and at tick 3. -/
theorem keyoff_semantics_witness :
    ((keyOff koVoice).sustain = false
      ∧ (koVoice.inst = Option.none → (keyOff koVoice).volume = 0)
      ∧ (∀ i, koVoice.inst = Option.some i → envIsOn i.volumeFlags = false →
          (keyOff koVoice).volume = 0)
      ∧ (∀ i, koVoice.inst = Option.some i → envIsOn i.volumeFlags = true →
          (keyOff koVoice).volume = koVoice.volume))
    ∧ ((3 : ℕ) = 0 → applyRowEffect [koCmd3] 0 ⟨jumpKind.none, 0, 0⟩ koVoice =
        (⟨jumpKind.none, 0, 0⟩, keyOff koVoice))
    ∧ ((3 : ℕ) ≠ 0 → applyRowEffect [koCmd3] 0 ⟨jumpKind.none, 0, 0⟩ koVoice =
        (⟨jumpKind.none, 0, 0⟩, koVoice))
    ∧ (applyTickEffect [koCmd3] 3 koVoice =
        (if ((3 : ℤ).emod 256).toNat = 3 then keyOff koVoice else koVoice))
    ∧ (0 ≤ (3 : ℤ) → (3 : ℤ) < 256 → applyTickEffect [koCmd3] 3 koVoice =
        (if (3 : ℤ) = ((3 : ℕ) : ℤ) then keyOff koVoice else koVoice)) :=
  keyoff_semantics [koCmd3] koCmd3 koVoice 3 3 ⟨jumpKind.none, 0, 0⟩ 0
    rfl rfl (by norm_num) rfl rfl

/-- Claim C5 (amended): on a forward overshoot a ping-pong sample flips
`reverse` on and sets the cursor to
`loop_end − (int(cursor) % int(loop_length))` — truncated-integer
arithmetic, not the exact reflection `loop_end − (cursor − loop_end)` —
which still lands in `(loop_start, loop_end]`; a subsequent backward
overshoot past `loop_start` flips `reverse` back off and sets the cursor
to `loop_start + (int(cursor) % int(loop_length))`, landing in
`[loop_start, loop_end)`.  Under integral loop points, a positive loop
length, `loop_end = loop_start + loop_length ≤ sample length` and
nonnegative cursors, the forward-then-backward drive returns the reverse
flag to its original (false) value and keeps the cursor within the
sample bounds at both steps. -/
theorem pingpong_truncated_reflection (a L : ℤ) (i : instrument) (ch : streamChannel)
    (hloop : i.loopType = sampleLoopType.pingPong)
    (hls : i.loopStart = (a : ℚ)) (hle : i.loopEnd = ((a + L : ℤ) : ℚ))
    (hll : i.loopLength = (L : ℚ))
    (hL : 0 < L) (ha : 0 ≤ a)
    (hlen : i.loopEnd ≤ (i.samples.length : ℚ))
    (hrev : ch.reverse = false)
    (hover : i.loopEnd ≤ ch.sampleOffset + ch.sampleStep) :
    ((advanceSample i ch).reverse = true
      ∧ (advanceSample i ch).sampleOffset =
          (((a + L) - (truncQ (ch.sampleOffset + ch.sampleStep)).tmod L : ℤ) : ℚ)
      ∧ (a : ℚ) < (advanceSample i ch).sampleOffset
      ∧ (advanceSample i ch).sampleOffset ≤ i.loopEnd
      ∧ 0 ≤ (advanceSample i ch).sampleOffset
      ∧ (advanceSample i ch).sampleOffset ≤ (i.samples.length : ℚ))
    ∧ (∀ st2 : ℚ,
        0 ≤ (advanceSample i ch).sampleOffset - st2 →
        (advanceSample i ch).sampleOffset - st2 ≤ i.loopStart →
        (advanceSample i { advanceSample i ch with sampleStep := st2 }).reverse = false
        ∧ (a : ℚ) ≤
            (advanceSample i { advanceSample i ch with sampleStep := st2 }).sampleOffset
        ∧ (advanceSample i { advanceSample i ch with sampleStep := st2 }).sampleOffset
            < i.loopEnd
        ∧ 0 ≤ (advanceSample i { advanceSample i ch with sampleStep := st2 }).sampleOffset
        ∧ (advanceSample i { advanceSample i ch with sampleStep := st2 }).sampleOffset
            ≤ (i.samples.length : ℚ)) := by
  have hq0 : (0 : ℚ) ≤ ch.sampleOffset + ch.sampleStep := by
    have : ((a + L : ℤ) : ℚ) ≤ ch.sampleOffset + ch.sampleStep := hle ▸ hover
    have hcast : (0 : ℚ) ≤ ((a + L : ℤ) : ℚ) := by
      exact_mod_cast Int.add_nonneg ha (le_of_lt hL)
    linarith
  have htq : a + L ≤ truncQ (ch.sampleOffset + ch.sampleStep) :=
    le_truncQ_of_le (hle ▸ hover)
  have htq0 : 0 ≤ truncQ (ch.sampleOffset + ch.sampleStep) := truncQ_nonneg hq0
  have hrmod : (truncQ (ch.sampleOffset + ch.sampleStep)).tmod L =
      (truncQ (ch.sampleOffset + ch.sampleStep)).emod L :=
    tmod_eq_emod_of_nonneg htq0 (le_of_lt hL)
  have hr0 : 0 ≤ (truncQ (ch.sampleOffset + ch.sampleStep)).tmod L := by
    rw [hrmod]
    exact Int.emod_nonneg _ (ne_of_gt hL)
  have hrlt : (truncQ (ch.sampleOffset + ch.sampleStep)).tmod L < L := by
    rw [hrmod]
    exact Int.emod_lt_of_pos _ hL
  have hadv : advanceSample i ch =
      { ch with
        reverse := true
        sampleOffset :=
          (((a + L) - (truncQ (ch.sampleOffset + ch.sampleStep)).tmod L : ℤ) : ℚ) } := by
    unfold advanceSample
    rw [hloop, hrev]
    simp only [Bool.false_eq_true, if_false]
    rw [if_pos hover, hle, hll, truncQ_intCast, truncQ_intCast]
  have hoff1lb : (a : ℚ) <
      (((a + L) - (truncQ (ch.sampleOffset + ch.sampleStep)).tmod L : ℤ) : ℚ) := by
    exact_mod_cast by omega
  have hoff1ub :
      (((a + L) - (truncQ (ch.sampleOffset + ch.sampleStep)).tmod L : ℤ) : ℚ) ≤
        ((a + L : ℤ) : ℚ) := by
    exact_mod_cast by omega
  have hcast0 : (0 : ℚ) ≤ (a : ℚ) := by exact_mod_cast ha
  refine ⟨⟨?_, ?_, ?_, ?_, ?_, ?_⟩, ?_⟩
  · rw [hadv]
  · rw [hadv]
  · rw [hadv]
    exact hoff1lb
  · rw [hadv, hle]
    exact hoff1ub
  · rw [hadv]
    linarith
  · rw [hadv]
    calc (((a + L) - (truncQ (ch.sampleOffset + ch.sampleStep)).tmod L : ℤ) : ℚ)
        ≤ ((a + L : ℤ) : ℚ) := hoff1ub
      _ = i.loopEnd := hle.symm
      _ ≤ (i.samples.length : ℚ) := hlen
  · intro st2 h2nn h2le
    rw [hadv] at h2nn h2le
    have hc2rev : ({ advanceSample i ch with sampleStep := st2 } : streamChannel).reverse
        = true := by
      rw [hadv]
    have hc2off : ({ advanceSample i ch with sampleStep := st2 } : streamChannel).sampleOffset
        = (((a + L) - (truncQ (ch.sampleOffset + ch.sampleStep)).tmod L : ℤ) : ℚ) := by
      rw [hadv]
    have hc2st : ({ advanceSample i ch with sampleStep := st2 } : streamChannel).sampleStep
        = st2 := rfl
    have hle2 : ({ advanceSample i ch with sampleStep := st2 } : streamChannel).sampleOffset -
        ({ advanceSample i ch with sampleStep := st2 } : streamChannel).sampleStep
          ≤ i.loopStart := by
      rw [hc2off, hc2st]
      exact h2le
    have hadv2 := advanceSample_pingpong_rev i
      { advanceSample i ch with sampleStep := st2 } hloop hc2rev hle2
    rw [hls, hll, truncQ_intCast, truncQ_intCast, hc2off, hc2st] at hadv2
    have ht2 : 0 ≤ truncQ
        ((((a + L) - (truncQ (ch.sampleOffset + ch.sampleStep)).tmod L : ℤ) : ℚ) - st2) :=
      truncQ_nonneg h2nn
    have hr2mod : (truncQ
          ((((a + L) - (truncQ (ch.sampleOffset + ch.sampleStep)).tmod L : ℤ) : ℚ) - st2)).tmod L =
        (truncQ
          ((((a + L) - (truncQ (ch.sampleOffset + ch.sampleStep)).tmod L : ℤ) : ℚ) - st2)).emod L :=
      tmod_eq_emod_of_nonneg ht2 (le_of_lt hL)
    have hr20 : 0 ≤ (truncQ
        ((((a + L) - (truncQ (ch.sampleOffset + ch.sampleStep)).tmod L : ℤ) : ℚ) - st2)).tmod L := by
      rw [hr2mod]
      exact Int.emod_nonneg _ (ne_of_gt hL)
    have hr2lt : (truncQ
        ((((a + L) - (truncQ (ch.sampleOffset + ch.sampleStep)).tmod L : ℤ) : ℚ) - st2)).tmod L < L := by
      rw [hr2mod]
      exact Int.emod_lt_of_pos _ hL
    have hO1 : (a : ℚ) ≤ ((a + (truncQ
        ((((a + L) - (truncQ (ch.sampleOffset + ch.sampleStep)).tmod L : ℤ) : ℚ) - st2)).tmod L : ℤ) : ℚ) := by
      exact_mod_cast (show a ≤ a + (truncQ
        ((((a + L) - (truncQ (ch.sampleOffset + ch.sampleStep)).tmod L : ℤ) : ℚ) - st2)).tmod L by omega)
    have hO2 : ((a + (truncQ
        ((((a + L) - (truncQ (ch.sampleOffset + ch.sampleStep)).tmod L : ℤ) : ℚ) - st2)).tmod L : ℤ) : ℚ)
          ≤ ((a + L : ℤ) : ℚ) := by
      exact_mod_cast (show a + (truncQ
        ((((a + L) - (truncQ (ch.sampleOffset + ch.sampleStep)).tmod L : ℤ) : ℚ) - st2)).tmod L
          ≤ a + L by omega)
    have hO3 : ((a + (truncQ
        ((((a + L) - (truncQ (ch.sampleOffset + ch.sampleStep)).tmod L : ℤ) : ℚ) - st2)).tmod L : ℤ) : ℚ)
          < ((a + L : ℤ) : ℚ) := by
      exact_mod_cast (show a + (truncQ
        ((((a + L) - (truncQ (ch.sampleOffset + ch.sampleStep)).tmod L : ℤ) : ℚ) - st2)).tmod L
          < a + L by omega)
    refine ⟨?_, ?_, ?_, ?_, ?_⟩
    · rw [hadv2]
    · rw [hadv2]
      exact hO1
    · rw [hadv2, hle]
      exact hO3
    · rw [hadv2]
      calc (0 : ℚ) ≤ (a : ℚ) := hcast0
        _ ≤ _ := hO1
    · rw [hadv2]
      calc ((a + (truncQ
            ((((a + L) - (truncQ (ch.sampleOffset + ch.sampleStep)).tmod L : ℤ) : ℚ) - st2)).tmod L : ℤ) : ℚ)
          ≤ ((a + L : ℤ) : ℚ) := hO2
        _ = i.loopEnd := hle.symm
        _ ≤ (i.samples.length : ℚ) := hlen

/-- Claim C5 (amended) witness: on `ppInst` (loop `[2, 6)`, length 4),
cursor 5 with step 2 overshoots to 7 and reflects to 3 with `reverse`
on; stepping 2 backward then undershoots to 1 and lands at 3 with
`reverse` off — inside the sample at every step. -/
theorem pingpong_truncated_reflection_witness :
    ((advanceSample ppInst ppVoice).reverse = true
      ∧ (advanceSample ppInst ppVoice).sampleOffset =
          (((2 + 4) - (truncQ (ppVoice.sampleOffset + ppVoice.sampleStep)).tmod 4 : ℤ) : ℚ)
      ∧ ((2 : ℤ) : ℚ) < (advanceSample ppInst ppVoice).sampleOffset
      ∧ (advanceSample ppInst ppVoice).sampleOffset ≤ ppInst.loopEnd
      ∧ 0 ≤ (advanceSample ppInst ppVoice).sampleOffset
      ∧ (advanceSample ppInst ppVoice).sampleOffset ≤ (ppInst.samples.length : ℚ))
    ∧ ((advanceSample ppInst { advanceSample ppInst ppVoice with sampleStep := 2 }).reverse = false
      ∧ ((2 : ℤ) : ℚ) ≤
          (advanceSample ppInst { advanceSample ppInst ppVoice with sampleStep := 2 }).sampleOffset
      ∧ (advanceSample ppInst { advanceSample ppInst ppVoice with sampleStep := 2 }).sampleOffset
          < ppInst.loopEnd
      ∧ 0 ≤ (advanceSample ppInst { advanceSample ppInst ppVoice with sampleStep := 2 }).sampleOffset
      ∧ (advanceSample ppInst { advanceSample ppInst ppVoice with sampleStep := 2 }).sampleOffset
          ≤ (ppInst.samples.length : ℚ)) :=
  have h := pingpong_truncated_reflection 2 4 ppInst ppVoice rfl (by norm_num [ppInst])
    (by norm_num [ppInst]) (by norm_num [ppInst]) (by norm_num) (by norm_num)
    (by norm_num [ppInst]) rfl (by norm_num [ppInst, ppVoice, streamChannel.init])
  ⟨h.1, h.2 2 (by decide) (by decide)⟩

/-- Claim C3 (amended): a rewind restores exactly the five sequencer
position counters to their freshly-loaded values and preserves every
other field — module, current pattern pointer, pending jump state,
volume scaling, and the reused (not reallocated) voice array.
Consequently, re-rendering after a rewind is byte-identical to a fresh
stream over the same module whenever the preserved mutable state equals
its freshly-loaded value; with stale voice or jump state it need not be
(see the counterexample). -/
theorem rewind_resets_only_sequencer (s : Stream) :
    ((Rewind s).patternIndex = -1 ∧ (Rewind s).patternRowsRemain = 0 ∧
     (Rewind s).patternRowIndex = -1 ∧ (Rewind s).rowTicksRemain = 0 ∧
     (Rewind s).tickIndex = -1 ∧
     (Rewind s).module = s.module ∧ (Rewind s).pattern = s.pattern ∧
     (Rewind s).jumpKind = s.jumpKind ∧ (Rewind s).jumpPattern = s.jumpPattern ∧
     (Rewind s).jumpRow = s.jumpRow ∧ (Rewind s).volumeScaling = s.volumeScaling ∧
     (Rewind s).channels = s.channels)
    ∧ (∀ (m : module) (nc : ℕ),
        s.module = m →
        s.pattern = Option.none →
        s.jumpKind = jumpKind.none →
        s.jumpPattern = 0 →
        s.jumpRow = 0 →
        s.volumeScaling = 4 / 5 →
        s.channels = List.replicate nc streamChannel.init →
        ∀ (fo : floatOps) (blen : ℕ),
          Read fo (Rewind s) blen = Read fo (loadStream m nc) blen) := by
  refine ⟨by simp [Rewind], ?_⟩
  intro m nc h1 h2 h3 h4 h5 h6 h7 fo blen
  have : Rewind s = loadStream m nc := by
    cases s
    simp_all [Rewind, loadStream]
  rw [this]

/-- Claim C3 (amended) witness: rewinding a freshly loaded stream is a
no-op for rendering. -/
theorem rewind_resets_only_sequencer_witness :
    ((Rewind (loadStream song1 1)).patternIndex = -1 ∧
     (Rewind (loadStream song1 1)).patternRowsRemain = 0 ∧
     (Rewind (loadStream song1 1)).patternRowIndex = -1 ∧
     (Rewind (loadStream song1 1)).rowTicksRemain = 0 ∧
     (Rewind (loadStream song1 1)).tickIndex = -1 ∧
     (Rewind (loadStream song1 1)).module = (loadStream song1 1).module ∧
     (Rewind (loadStream song1 1)).pattern = (loadStream song1 1).pattern ∧
     (Rewind (loadStream song1 1)).jumpKind = (loadStream song1 1).jumpKind ∧
     (Rewind (loadStream song1 1)).jumpPattern = (loadStream song1 1).jumpPattern ∧
     (Rewind (loadStream song1 1)).jumpRow = (loadStream song1 1).jumpRow ∧
     (Rewind (loadStream song1 1)).volumeScaling = (loadStream song1 1).volumeScaling ∧
     (Rewind (loadStream song1 1)).channels = (loadStream song1 1).channels)
    ∧ Read fo0 (Rewind (loadStream song1 1)) 5 = Read fo0 (loadStream song1 1) 5 :=
  have h := rewind_resets_only_sequencer (loadStream song1 1)
  ⟨h.1, h.2 song1 1 rfl rfl rfl rfl rfl rfl rfl fo0 5⟩

end XM
